import Mathlib

/-!
Verification of the background-removal pipeline in `removal.py`.

The program compares two background-removal candidates (a U-2-Net
segmentation pass and the `rembg` library) for each input image, gated by a
saliency heuristic, and flattens the winner onto a white background.

Shallow embedding choices:
* images are lists of pixels: an `Img` is either an RGB pixel list (no alpha
  channel) or an RGBA pixel list, with 8-bit channel values as `ℕ`;
* real-valued scores are modelled as `ℚ`;
* the external, opaque image metrics (skimage SSIM, Canny-edge SSIM,
  OpenCV histogram correlation, the OpenCV fine-grained static saliency
  map) are oracles collected in an `Externals` structure — the repository
  only consumes their scalar outputs;
* exceptions are modelled with `Except` and explicit propagation.
-/

/-- One RGBA pixel; channel values are 8-bit (0..255), alpha 0 = fully
transparent, 255 = fully opaque. -/
structure Pixel where
  r : ℕ
  g : ℕ
  b : ℕ
  a : ℕ
  deriving DecidableEq

/-- One RGB pixel (no alpha channel). -/
abbrev RGB : Type := ℕ × ℕ × ℕ

/-- An RGBA image as its list of pixels (row-major flattening; the claims
under verification are per-pixel or whole-image, so the 2-D shape is not
needed). -/
abbrev RGBAImg : Type := List Pixel

/-- An image as loaded by the pipeline: 3-channel (RGB) or 4-channel
(RGBA), mirroring the `image.shape[2]` branch in the code. -/
inductive Img where
  | rgb (pixels : List RGB)
  | rgba (pixels : List Pixel)
  deriving DecidableEq

/-- The method labels `decide_best_method` can return. -/
inductive Method where
  | U2Net
  | rembg
  | Original
  deriving DecidableEq

/-- Oracles for the external library calls whose outputs the repository
consumes as scalars or arrays: `ssim` models `compare_images` (grayscale
SSIM), `edgeSsim` models `edge_similarity` (SSIM of Canny edge maps at
thresholds 100/200), `histCorrel` models `histogram_difference`
(correlation of 256-bin first-channel histograms), and `saliencyMap`
models `cv2.saliency.StaticSaliencyFineGrained_create().computeSaliency`
on the image file at a path, returning the per-pixel saliency values. -/
structure Externals where
  ssim : RGBAImg → RGBAImg → ℚ
  edgeSsim : RGBAImg → RGBAImg → ℚ
  histCorrel : RGBAImg → RGBAImg → ℚ
  saliencyMap : String → List ℚ

/-- `np.mean` on a list of rationals (sum divided by size). -/
def npMean (l : List ℚ) : ℚ := l.sum / (l.length : ℚ)

/-- `foreground_pixel_analysis`: fraction of pixels whose alpha channel is
nonzero (`np.count_nonzero(alpha) / alpha.size`). -/
def foreground_pixel_analysis (output_img : RGBAImg) : ℚ :=
  ((output_img.countP fun p => p.a != 0 : ℕ) : ℚ) / ((output_img.length : ℕ) : ℚ)

/-- `needs_background_removal`: mean of the saliency map compared against
the fixed threshold 0.4; returns `true` exactly when the mean saliency is
strictly below the threshold. -/
def needs_background_removal (E : Externals) (img_path : String) : Bool :=
  let saliency_map := E.saliencyMap img_path
  let threshold : ℚ := 2 / 5
  let saliency_score := npMean saliency_map
  decide (saliency_score < threshold)

/-- The composite score for the U-2-Net candidate
(`(score_ssim + score_foreground + score_edge + score_hist) / 4`). -/
def u2net_score (score_ssim score_foreground score_edge score_hist : ℚ) : ℚ :=
  (score_ssim + score_foreground + score_edge + score_hist) / 4

/-- The composite score for the rembg candidate
(`(1 - score_ssim + (1 - score_foreground) + (1 - score_edge) + (1 - score_hist)) / 4`). -/
def rembg_score (score_ssim score_foreground score_edge score_hist : ℚ) : ℚ :=
  (1 - score_ssim + (1 - score_foreground) + (1 - score_edge) + (1 - score_hist)) / 4

/-- `decide_best_method(output_u2net, output_rembg, original_image,
image_path, min_foreground_threshold=0.2)`: computes the four metric
scores, returns the original image labelled `"Original"` when the saliency
gate holds and the foreground ratio is below the threshold, and otherwise
picks the candidate with the larger composite score (the two parallel
conditionals of the code are kept as two conditionals). -/
def decide_best_method (E : Externals) (output_u2net output_rembg : RGBAImg)
    (original_image : Img) (image_path : String)
    (min_foreground_threshold : ℚ) : Img × Method :=
  let score_ssim := E.ssim output_u2net output_rembg
  let score_foreground := foreground_pixel_analysis output_u2net
  let score_edge := E.edgeSsim output_u2net output_rembg
  let score_hist := E.histCorrel output_u2net output_rembg
  if needs_background_removal E image_path = true ∧
      score_foreground < min_foreground_threshold then
    (original_image, Method.Original)
  else
    let best_output :=
      if u2net_score score_ssim score_foreground score_edge score_hist >
          rembg_score score_ssim score_foreground score_edge score_hist then
        Img.rgba output_u2net
      else Img.rgba output_rembg
    let best_method :=
      if u2net_score score_ssim score_foreground score_edge score_hist >
          rembg_score score_ssim score_foreground score_edge score_hist then
        Method.U2Net
      else Method.rembg
    (best_output, best_method)

/-- The per-pixel action of `replace_with_white_background` on an RGBA
pixel list: pixels with alpha exactly 0 become opaque white
`[255, 255, 255, 255]`; all others are untouched. -/
def flattenRGBA (pixels : List Pixel) : List Pixel :=
  pixels.map fun p => if p.a = 0 then ⟨255, 255, 255, 255⟩ else p

/-- `replace_with_white_background`: on a 4-channel image, replace the
fully transparent pixels with opaque white; a 3-channel image is returned
as is. -/
def replace_with_white_background (image : Img) : Img :=
  match image with
  | Img.rgba pixels => Img.rgba (flattenRGBA pixels)
  | Img.rgb pixels => Img.rgb pixels

/-- The pixel list of an RGBA image (empty for an RGB image); accessor used
to state per-pixel properties of `replace_with_white_background`. -/
def rgbaPixels : Img → List Pixel
  | Img.rgba pixels => pixels
  | Img.rgb _ => []

/-- The extension filter of `process_directory`:
`filename.lower().endswith((".jpg", ".jpeg", ".png"))`, working on the
character list of the filename (ASCII lowering, which is all that matters
against these three ASCII suffixes). -/
def has_image_extension (filename : String) : Bool :=
  let lower := filename.data.map Char.toLower
  ".jpg".data.isSuffixOf lower || ".jpeg".data.isSuffixOf lower ||
    ".png".data.isSuffixOf lower

/-- The base-name part of `os.path.splitext(filename)` for a bare directory
entry (no path separators, as produced by `os.listdir`): the prefix before
the last dot, except that a name whose characters before that dot are all
dots has no extension and is returned whole. -/
def splitext_base (p : String) : String :=
  match p.data.reverse.findIdx? (fun c => c = '.') with
  | none => p
  | some j =>
    let dotIndex := p.data.length - 1 - j
    if (p.data.take dotIndex).all (fun c => c = '.') then p
    else String.mk (p.data.take dotIndex)

/-- `process_directory`, with the per-image pipeline
(`process_and_save`, i.e. decoding, both removals, the decision and the
white-background flattening) abstracted as `proc`, which either produces
the final image for an input filename or raises an error. Mirrors the
Python loop: non-matching filenames are skipped; a successful image is
written as `splitext(filename)[0] + ".png"`; an uncaught exception stops
the loop, keeping the outputs written so far and reporting the error. -/
def process_directory (proc : String → Except String RGBAImg) :
    List String → List (String × RGBAImg) × Option String
  | [] => ([], none)
  | filename :: rest =>
    if has_image_extension filename then
      match proc filename with
      | Except.ok img =>
        let r := process_directory proc rest
        ((splitext_base filename ++ ".png", img) :: r.1, r.2)
      | Except.error e => ([], some e)
    else process_directory proc rest

/-- A concrete oracle instance used by the closed witness and
counterexample theorems: the scalar metrics all return 1, and the saliency
map has mean 0 (gate true) for `"low.jpg"` and mean 1 (gate false) for
every other path. -/
def demoExt : Externals where
  ssim := fun _ _ => 1
  edgeSsim := fun _ _ => 1
  histCorrel := fun _ _ => 1
  saliencyMap := fun p => if p = "low.jpg" then [0] else [1]

/-- A concrete per-image pipeline for the directory-driver theorems:
fails on `"bad.jpg"`, succeeds with a one-pixel image elsewhere. -/
def failProc : String → Except String RGBAImg := fun f =>
  if f = "bad.jpg" then Except.error "DecodeError"
  else Except.ok [⟨1, 2, 3, 255⟩]

/-! Comparator theorems -/

/-- When the saliency-gate-and-foreground override does not fire,
`decide_best_method` reduces to the comparison of the two composite
scores (shared shape lemma for the comparator theorems). -/
lemma decide_best_method_of_not_override (E : Externals)
    (output_u2net output_rembg : RGBAImg) (original_image : Img)
    (image_path : String) (thr : ℚ)
    (h : ¬(needs_background_removal E image_path = true ∧
        foreground_pixel_analysis output_u2net < thr)) :
    decide_best_method E output_u2net output_rembg original_image image_path thr =
      if u2net_score (E.ssim output_u2net output_rembg)
            (foreground_pixel_analysis output_u2net)
            (E.edgeSsim output_u2net output_rembg)
            (E.histCorrel output_u2net output_rembg) >
          rembg_score (E.ssim output_u2net output_rembg)
            (foreground_pixel_analysis output_u2net)
            (E.edgeSsim output_u2net output_rembg)
            (E.histCorrel output_u2net output_rembg) then
        (Img.rgba output_u2net, Method.U2Net)
      else (Img.rgba output_rembg, Method.rembg) := by
  simp only [decide_best_method, if_neg h]
  by_cases hgt : u2net_score (E.ssim output_u2net output_rembg)
      (foreground_pixel_analysis output_u2net)
      (E.edgeSsim output_u2net output_rembg)
      (E.histCorrel output_u2net output_rembg) >
    rembg_score (E.ssim output_u2net output_rembg)
      (foreground_pixel_analysis output_u2net)
      (E.edgeSsim output_u2net output_rembg)
      (E.histCorrel output_u2net output_rembg)
  · simp only [if_pos hgt]
  · simp only [if_neg hgt]

/-- C1: whenever the saliency gate returns true for the path and the
foreground ratio of the U-2-Net candidate is strictly below the 0.2
threshold, `decide_best_method` returns the original image labelled
`Original` — for every value of the SSIM, edge-SSIM and histogram oracles
and both candidate images. -/
theorem decide_best_method_override (E : Externals)
    (output_u2net output_rembg : RGBAImg) (original_image : Img)
    (image_path : String)
    (hg : needs_background_removal E image_path = true)
    (hf : foreground_pixel_analysis output_u2net < 1 / 5) :
    decide_best_method E output_u2net output_rembg original_image image_path (1 / 5) =
      (original_image, Method.Original) := by
  simp only [decide_best_method, if_pos (And.intro hg hf)]

/-- Witness for C1 at a concrete input: a fully-transparent one-pixel
U-2-Net candidate (foreground ratio 0) and a low-saliency path. -/
theorem decide_best_method_override_witness :
    needs_background_removal demoExt "low.jpg" = true ∧
    foreground_pixel_analysis [⟨0, 0, 0, 0⟩] < 1 / 5 ∧
    decide_best_method demoExt [⟨0, 0, 0, 0⟩] [⟨9, 9, 9, 255⟩]
        (Img.rgb [(7, 7, 7)]) "low.jpg" (1 / 5) =
      (Img.rgb [(7, 7, 7)], Method.Original) := by
  have hg : needs_background_removal demoExt "low.jpg" = true := by
    norm_num [needs_background_removal, demoExt, npMean]
  have hf : foreground_pixel_analysis [(⟨0, 0, 0, 0⟩ : Pixel)] < 1 / 5 := by
    norm_num [foreground_pixel_analysis, List.countP, List.countP.go]
  exact ⟨hg, hf, decide_best_method_override demoExt _ _ _ _ hg hf⟩

/-- C2: when the override does not fire, `decide_best_method` returns the
U-2-Net candidate labelled `U2Net` exactly when its composite score
(the average of the four metrics) strictly exceeds the rembg composite
score (the average of their complements), and returns the rembg candidate
labelled `rembg` whenever the U-2-Net score is less than or equal to the
rembg score — so ties go to candidateB. -/
theorem decide_best_method_score_rule (E : Externals)
    (output_u2net output_rembg : RGBAImg) (original_image : Img)
    (image_path : String)
    (h : ¬(needs_background_removal E image_path = true ∧
        foreground_pixel_analysis output_u2net < 1 / 5)) :
    (decide_best_method E output_u2net output_rembg original_image image_path (1 / 5) =
        (Img.rgba output_u2net, Method.U2Net) ↔
      u2net_score (E.ssim output_u2net output_rembg)
          (foreground_pixel_analysis output_u2net)
          (E.edgeSsim output_u2net output_rembg)
          (E.histCorrel output_u2net output_rembg) >
        rembg_score (E.ssim output_u2net output_rembg)
          (foreground_pixel_analysis output_u2net)
          (E.edgeSsim output_u2net output_rembg)
          (E.histCorrel output_u2net output_rembg)) ∧
    (u2net_score (E.ssim output_u2net output_rembg)
          (foreground_pixel_analysis output_u2net)
          (E.edgeSsim output_u2net output_rembg)
          (E.histCorrel output_u2net output_rembg) ≤
        rembg_score (E.ssim output_u2net output_rembg)
          (foreground_pixel_analysis output_u2net)
          (E.edgeSsim output_u2net output_rembg)
          (E.histCorrel output_u2net output_rembg) →
      decide_best_method E output_u2net output_rembg original_image image_path (1 / 5) =
        (Img.rgba output_rembg, Method.rembg)) := by
  rw [decide_best_method_of_not_override E _ _ _ _ _ h]
  constructor
  · by_cases hgt : u2net_score (E.ssim output_u2net output_rembg)
        (foreground_pixel_analysis output_u2net)
        (E.edgeSsim output_u2net output_rembg)
        (E.histCorrel output_u2net output_rembg) >
      rembg_score (E.ssim output_u2net output_rembg)
        (foreground_pixel_analysis output_u2net)
        (E.edgeSsim output_u2net output_rembg)
        (E.histCorrel output_u2net output_rembg)
    · simp [hgt]
    · simp [hgt, Prod.ext_iff]
  · intro hle
    rw [if_neg (not_lt.mpr hle)]

/-- Witness for C2 at a concrete input: an all-opaque one-pixel U-2-Net
candidate on a high-saliency path, with all metric oracles equal to 1. -/
theorem decide_best_method_score_rule_witness :
    (¬(needs_background_removal demoExt "x.jpg" = true ∧
        foreground_pixel_analysis [⟨1, 2, 3, 255⟩] < 1 / 5)) ∧
    (decide_best_method demoExt [⟨1, 2, 3, 255⟩] [⟨4, 5, 6, 255⟩]
          (Img.rgb []) "x.jpg" (1 / 5) =
        (Img.rgba [⟨1, 2, 3, 255⟩], Method.U2Net) ↔
      u2net_score (demoExt.ssim [⟨1, 2, 3, 255⟩] [⟨4, 5, 6, 255⟩])
          (foreground_pixel_analysis [⟨1, 2, 3, 255⟩])
          (demoExt.edgeSsim [⟨1, 2, 3, 255⟩] [⟨4, 5, 6, 255⟩])
          (demoExt.histCorrel [⟨1, 2, 3, 255⟩] [⟨4, 5, 6, 255⟩]) >
        rembg_score (demoExt.ssim [⟨1, 2, 3, 255⟩] [⟨4, 5, 6, 255⟩])
          (foreground_pixel_analysis [⟨1, 2, 3, 255⟩])
          (demoExt.edgeSsim [⟨1, 2, 3, 255⟩] [⟨4, 5, 6, 255⟩])
          (demoExt.histCorrel [⟨1, 2, 3, 255⟩] [⟨4, 5, 6, 255⟩])) ∧
    (u2net_score (demoExt.ssim [⟨1, 2, 3, 255⟩] [⟨4, 5, 6, 255⟩])
          (foreground_pixel_analysis [⟨1, 2, 3, 255⟩])
          (demoExt.edgeSsim [⟨1, 2, 3, 255⟩] [⟨4, 5, 6, 255⟩])
          (demoExt.histCorrel [⟨1, 2, 3, 255⟩] [⟨4, 5, 6, 255⟩]) ≤
        rembg_score (demoExt.ssim [⟨1, 2, 3, 255⟩] [⟨4, 5, 6, 255⟩])
          (foreground_pixel_analysis [⟨1, 2, 3, 255⟩])
          (demoExt.edgeSsim [⟨1, 2, 3, 255⟩] [⟨4, 5, 6, 255⟩])
          (demoExt.histCorrel [⟨1, 2, 3, 255⟩] [⟨4, 5, 6, 255⟩]) →
      decide_best_method demoExt [⟨1, 2, 3, 255⟩] [⟨4, 5, 6, 255⟩]
          (Img.rgb []) "x.jpg" (1 / 5) =
        (Img.rgba [⟨4, 5, 6, 255⟩], Method.rembg)) := by
  have hmap : demoExt.saliencyMap "x.jpg" = [1] := rfl
  have hg : needs_background_removal demoExt "x.jpg" = false := by
    norm_num [needs_background_removal, hmap, npMean]
  have h : ¬(needs_background_removal demoExt "x.jpg" = true ∧
      foreground_pixel_analysis [(⟨1, 2, 3, 255⟩ : Pixel)] < 1 / 5) := by
    simp [hg]
  obtain ⟨h1, h2⟩ := decide_best_method_score_rule demoExt
    [⟨1, 2, 3, 255⟩] [⟨4, 5, 6, 255⟩] (Img.rgb []) "x.jpg" h
  exact ⟨h, h1, h2⟩

/-- C9: the two composite scores always sum to 1, so (override aside) the
U-2-Net candidate wins exactly when its composite score exceeds 1/2 and
the rembg candidate wins exactly when the U-2-Net composite score is at
most 1/2. -/
theorem decide_best_method_half_rule (E : Externals)
    (output_u2net output_rembg : RGBAImg) (original_image : Img)
    (image_path : String)
    (h : ¬(needs_background_removal E image_path = true ∧
        foreground_pixel_analysis output_u2net < 1 / 5)) :
    (∀ s f e c : ℚ, u2net_score s f e c + rembg_score s f e c = 1) ∧
    (decide_best_method E output_u2net output_rembg original_image image_path (1 / 5) =
        (Img.rgba output_u2net, Method.U2Net) ↔
      1 / 2 < u2net_score (E.ssim output_u2net output_rembg)
          (foreground_pixel_analysis output_u2net)
          (E.edgeSsim output_u2net output_rembg)
          (E.histCorrel output_u2net output_rembg)) ∧
    (decide_best_method E output_u2net output_rembg original_image image_path (1 / 5) =
        (Img.rgba output_rembg, Method.rembg) ↔
      u2net_score (E.ssim output_u2net output_rembg)
          (foreground_pixel_analysis output_u2net)
          (E.edgeSsim output_u2net output_rembg)
          (E.histCorrel output_u2net output_rembg) ≤ 1 / 2) := by
  have hsum : ∀ s f e c : ℚ, u2net_score s f e c + rembg_score s f e c = 1 := by
    intro s f e c
    unfold u2net_score rembg_score
    ring
  have h1 := hsum (E.ssim output_u2net output_rembg)
    (foreground_pixel_analysis output_u2net)
    (E.edgeSsim output_u2net output_rembg)
    (E.histCorrel output_u2net output_rembg)
  rw [decide_best_method_of_not_override E _ _ _ _ _ h]
  refine ⟨hsum, ?_, ?_⟩
  · by_cases hgt : u2net_score (E.ssim output_u2net output_rembg)
        (foreground_pixel_analysis output_u2net)
        (E.edgeSsim output_u2net output_rembg)
        (E.histCorrel output_u2net output_rembg) >
      rembg_score (E.ssim output_u2net output_rembg)
        (foreground_pixel_analysis output_u2net)
        (E.edgeSsim output_u2net output_rembg)
        (E.histCorrel output_u2net output_rembg)
    · rw [if_pos hgt]
      constructor
      · intro _
        linarith
      · intro _
        rfl
    · rw [if_neg hgt]
      constructor
      · intro heq
        simp [Prod.ext_iff] at heq
      · intro hhalf
        have := not_lt.mp hgt
        linarith
  · by_cases hgt : u2net_score (E.ssim output_u2net output_rembg)
        (foreground_pixel_analysis output_u2net)
        (E.edgeSsim output_u2net output_rembg)
        (E.histCorrel output_u2net output_rembg) >
      rembg_score (E.ssim output_u2net output_rembg)
        (foreground_pixel_analysis output_u2net)
        (E.edgeSsim output_u2net output_rembg)
        (E.histCorrel output_u2net output_rembg)
    · rw [if_pos hgt]
      constructor
      · intro heq
        simp [Prod.ext_iff] at heq
      · intro hhalf
        linarith
    · rw [if_neg hgt]
      constructor
      · intro _
        have := not_lt.mp hgt
        linarith
      · intro _
        rfl

/-- Witness for C9 at a concrete input: same scenario as the C2 witness,
with the score-sum fact instantiated at the four unit metric values. -/
theorem decide_best_method_half_rule_witness :
    (¬(needs_background_removal demoExt "x.jpg" = true ∧
        foreground_pixel_analysis [⟨1, 2, 3, 255⟩] < 1 / 5)) ∧
    u2net_score 1 1 1 1 + rembg_score 1 1 1 1 = 1 ∧
    (decide_best_method demoExt [⟨1, 2, 3, 255⟩] [⟨4, 5, 6, 255⟩]
          (Img.rgb []) "x.jpg" (1 / 5) =
        (Img.rgba [⟨1, 2, 3, 255⟩], Method.U2Net) ↔
      1 / 2 < u2net_score (demoExt.ssim [⟨1, 2, 3, 255⟩] [⟨4, 5, 6, 255⟩])
          (foreground_pixel_analysis [⟨1, 2, 3, 255⟩])
          (demoExt.edgeSsim [⟨1, 2, 3, 255⟩] [⟨4, 5, 6, 255⟩])
          (demoExt.histCorrel [⟨1, 2, 3, 255⟩] [⟨4, 5, 6, 255⟩])) ∧
    (decide_best_method demoExt [⟨1, 2, 3, 255⟩] [⟨4, 5, 6, 255⟩]
          (Img.rgb []) "x.jpg" (1 / 5) =
        (Img.rgba [⟨4, 5, 6, 255⟩], Method.rembg) ↔
      u2net_score (demoExt.ssim [⟨1, 2, 3, 255⟩] [⟨4, 5, 6, 255⟩])
          (foreground_pixel_analysis [⟨1, 2, 3, 255⟩])
          (demoExt.edgeSsim [⟨1, 2, 3, 255⟩] [⟨4, 5, 6, 255⟩])
          (demoExt.histCorrel [⟨1, 2, 3, 255⟩] [⟨4, 5, 6, 255⟩]) ≤ 1 / 2) := by
  have hmap : demoExt.saliencyMap "x.jpg" = [1] := rfl
  have hg : needs_background_removal demoExt "x.jpg" = false := by
    norm_num [needs_background_removal, hmap, npMean]
  have h : ¬(needs_background_removal demoExt "x.jpg" = true ∧
      foreground_pixel_analysis [(⟨1, 2, 3, 255⟩ : Pixel)] < 1 / 5) := by
    simp [hg]
  obtain ⟨hsum, h1, h2⟩ := decide_best_method_half_rule demoExt
    [⟨1, 2, 3, 255⟩] [⟨4, 5, 6, 255⟩] (Img.rgb []) "x.jpg" h
  exact ⟨h, hsum 1 1 1 1, h1, h2⟩

/-- C10: the label returned by `decide_best_method` is consistent with the
returned image: when the three possible result images are pairwise
distinct, the result is one of (candidateA, `U2Net`), (candidateB,
`rembg`), (original, `Original`), and the image determines the label and
conversely. -/
theorem decide_best_method_label_consistent (E : Externals)
    (output_u2net output_rembg : RGBAImg) (original_image : Img)
    (image_path : String) (thr : ℚ)
    (hUR : output_u2net ≠ output_rembg)
    (hUO : Img.rgba output_u2net ≠ original_image)
    (hRO : Img.rgba output_rembg ≠ original_image) :
    (decide_best_method E output_u2net output_rembg original_image image_path thr =
        (Img.rgba output_u2net, Method.U2Net) ∨
      decide_best_method E output_u2net output_rembg original_image image_path thr =
        (Img.rgba output_rembg, Method.rembg) ∨
      decide_best_method E output_u2net output_rembg original_image image_path thr =
        (original_image, Method.Original)) ∧
    ((decide_best_method E output_u2net output_rembg original_image image_path thr).1 =
        Img.rgba output_u2net ↔
      (decide_best_method E output_u2net output_rembg original_image image_path thr).2 =
        Method.U2Net) ∧
    ((decide_best_method E output_u2net output_rembg original_image image_path thr).1 =
        Img.rgba output_rembg ↔
      (decide_best_method E output_u2net output_rembg original_image image_path thr).2 =
        Method.rembg) ∧
    ((decide_best_method E output_u2net output_rembg original_image image_path thr).1 =
        original_image ↔
      (decide_best_method E output_u2net output_rembg original_image image_path thr).2 =
        Method.Original) := by
  simp only [decide_best_method]
  by_cases hov : needs_background_removal E image_path = true ∧
      foreground_pixel_analysis output_u2net < thr
  · rw [if_pos hov]
    refine ⟨Or.inr (Or.inr rfl), ?_, ?_, ?_⟩
    · simp [Ne.symm hUO]
    · simp [Ne.symm hRO]
    · simp
  · rw [if_neg hov]
    by_cases hgt : u2net_score (E.ssim output_u2net output_rembg)
        (foreground_pixel_analysis output_u2net)
        (E.edgeSsim output_u2net output_rembg)
        (E.histCorrel output_u2net output_rembg) >
      rembg_score (E.ssim output_u2net output_rembg)
        (foreground_pixel_analysis output_u2net)
        (E.edgeSsim output_u2net output_rembg)
        (E.histCorrel output_u2net output_rembg)
    · rw [if_pos hgt, if_pos hgt]
      refine ⟨Or.inl rfl, ?_, ?_, ?_⟩
      · simp
      · simp [hUR]
      · simp [hUO]
    · rw [if_neg hgt, if_neg hgt]
      refine ⟨Or.inr (Or.inl rfl), ?_, ?_, ?_⟩
      · simp [Ne.symm hUR]
      · simp
      · simp [hRO]

/-- Witness for C10 at a concrete input with three pairwise distinct
images. -/
theorem decide_best_method_label_consistent_witness :
    ([⟨1, 0, 0, 255⟩] : RGBAImg) ≠ [⟨2, 0, 0, 255⟩] ∧
    Img.rgba [⟨1, 0, 0, 255⟩] ≠ Img.rgb [] ∧
    Img.rgba [⟨2, 0, 0, 255⟩] ≠ Img.rgb [] ∧
    ((decide_best_method demoExt [⟨1, 0, 0, 255⟩] [⟨2, 0, 0, 255⟩]
          (Img.rgb []) "x.jpg" (1 / 5) =
        (Img.rgba [⟨1, 0, 0, 255⟩], Method.U2Net) ∨
      decide_best_method demoExt [⟨1, 0, 0, 255⟩] [⟨2, 0, 0, 255⟩]
          (Img.rgb []) "x.jpg" (1 / 5) =
        (Img.rgba [⟨2, 0, 0, 255⟩], Method.rembg) ∨
      decide_best_method demoExt [⟨1, 0, 0, 255⟩] [⟨2, 0, 0, 255⟩]
          (Img.rgb []) "x.jpg" (1 / 5) =
        (Img.rgb [], Method.Original)) ∧
    ((decide_best_method demoExt [⟨1, 0, 0, 255⟩] [⟨2, 0, 0, 255⟩]
          (Img.rgb []) "x.jpg" (1 / 5)).1 = Img.rgba [⟨1, 0, 0, 255⟩] ↔
      (decide_best_method demoExt [⟨1, 0, 0, 255⟩] [⟨2, 0, 0, 255⟩]
          (Img.rgb []) "x.jpg" (1 / 5)).2 = Method.U2Net) ∧
    ((decide_best_method demoExt [⟨1, 0, 0, 255⟩] [⟨2, 0, 0, 255⟩]
          (Img.rgb []) "x.jpg" (1 / 5)).1 = Img.rgba [⟨2, 0, 0, 255⟩] ↔
      (decide_best_method demoExt [⟨1, 0, 0, 255⟩] [⟨2, 0, 0, 255⟩]
          (Img.rgb []) "x.jpg" (1 / 5)).2 = Method.rembg) ∧
    ((decide_best_method demoExt [⟨1, 0, 0, 255⟩] [⟨2, 0, 0, 255⟩]
          (Img.rgb []) "x.jpg" (1 / 5)).1 = Img.rgb [] ↔
      (decide_best_method demoExt [⟨1, 0, 0, 255⟩] [⟨2, 0, 0, 255⟩]
          (Img.rgb []) "x.jpg" (1 / 5)).2 = Method.Original)) :=
  ⟨by decide, by decide, by decide,
    decide_best_method_label_consistent demoExt [⟨1, 0, 0, 255⟩]
      [⟨2, 0, 0, 255⟩] (Img.rgb []) "x.jpg" (1 / 5)
      (by decide) (by decide) (by decide)⟩

/-- Counterexample to C3 as stated: with identical one-pixel fully-opaque
candidates, all three pairwise metrics equal to 1 and the override not
firing, the composite scores are NOT tied (scoreA = 1, scoreB = 0) and
`decide_best_method` resolves to candidateA labelled `U2Net`, not to
candidateB. -/
theorem decide_best_method_identical_cex :
    demoExt.ssim [⟨1, 2, 3, 255⟩] [⟨1, 2, 3, 255⟩] = 1 ∧
    demoExt.edgeSsim [⟨1, 2, 3, 255⟩] [⟨1, 2, 3, 255⟩] = 1 ∧
    demoExt.histCorrel [⟨1, 2, 3, 255⟩] [⟨1, 2, 3, 255⟩] = 1 ∧
    foreground_pixel_analysis [⟨1, 2, 3, 255⟩] = 1 ∧
    needs_background_removal demoExt "x.jpg" = false ∧
    u2net_score 1 1 1 1 ≠ rembg_score 1 1 1 1 ∧
    decide_best_method demoExt [⟨1, 2, 3, 255⟩] [⟨1, 2, 3, 255⟩]
        (Img.rgb []) "x.jpg" (1 / 5) =
      (Img.rgba [⟨1, 2, 3, 255⟩], Method.U2Net) := by
  have hmap : demoExt.saliencyMap "x.jpg" = [1] := rfl
  have hg : needs_background_removal demoExt "x.jpg" = false := by
    norm_num [needs_background_removal, hmap, npMean]
  have hf : foreground_pixel_analysis [(⟨1, 2, 3, 255⟩ : Pixel)] = 1 := by
    have hcount : List.countP (fun p => p.a != 0) [(⟨1, 2, 3, 255⟩ : Pixel)] = 1 := rfl
    unfold foreground_pixel_analysis
    rw [hcount]
    norm_num
  refine ⟨rfl, rfl, rfl, hf, hg, by norm_num [u2net_score, rembg_score], ?_⟩
  have hov : ¬(needs_background_removal demoExt "x.jpg" = true ∧
      foreground_pixel_analysis [(⟨1, 2, 3, 255⟩ : Pixel)] < 1 / 5) := by
    simp [hg]
  rw [decide_best_method_of_not_override demoExt _ _ _ _ _ hov]
  rw [if_pos]
  show rembg_score _ _ _ _ < u2net_score _ _ _ _
  have h1 : demoExt.ssim [⟨1, 2, 3, 255⟩] [⟨1, 2, 3, 255⟩] = 1 := rfl
  have h2 : demoExt.edgeSsim [⟨1, 2, 3, 255⟩] [⟨1, 2, 3, 255⟩] = 1 := rfl
  have h3 : demoExt.histCorrel [⟨1, 2, 3, 255⟩] [⟨1, 2, 3, 255⟩] = 1 := rfl
  rw [h1, h2, h3, hf]
  norm_num [u2net_score, rembg_score]

/-- C3 (amended): for identical candidates — so the SSIM, edge and
histogram metrics all equal 1 — and with the override not firing, the
composite scores are scoreA = (3 + f) / 4 and scoreB = (1 - f) / 4 with
f the (nonnegative) foreground ratio, so scoreA strictly exceeds scoreB
and `decide_best_method` resolves to candidateA labelled `U2Net`. -/
theorem decide_best_method_identical (E : Externals) (cand : RGBAImg)
    (original_image : Img) (image_path : String)
    (h1 : E.ssim cand cand = 1) (h2 : E.edgeSsim cand cand = 1)
    (h3 : E.histCorrel cand cand = 1)
    (hov : ¬(needs_background_removal E image_path = true ∧
        foreground_pixel_analysis cand < 1 / 5)) :
    rembg_score (E.ssim cand cand) (foreground_pixel_analysis cand)
        (E.edgeSsim cand cand) (E.histCorrel cand cand) <
      u2net_score (E.ssim cand cand) (foreground_pixel_analysis cand)
        (E.edgeSsim cand cand) (E.histCorrel cand cand) ∧
    decide_best_method E cand cand original_image image_path (1 / 5) =
      (Img.rgba cand, Method.U2Net) := by
  have hf0 : 0 ≤ foreground_pixel_analysis cand := by
    unfold foreground_pixel_analysis
    positivity
  have hlt : rembg_score (E.ssim cand cand) (foreground_pixel_analysis cand)
        (E.edgeSsim cand cand) (E.histCorrel cand cand) <
      u2net_score (E.ssim cand cand) (foreground_pixel_analysis cand)
        (E.edgeSsim cand cand) (E.histCorrel cand cand) := by
    rw [h1, h2, h3]
    unfold u2net_score rembg_score
    linarith
  refine ⟨hlt, ?_⟩
  rw [decide_best_method_of_not_override E _ _ _ _ _ hov, if_pos hlt]

/-- Witness for the amended C3 at a concrete input: a one-pixel fully
opaque candidate compared with itself, on a high-saliency path. -/
theorem decide_best_method_identical_witness :
    demoExt.ssim [⟨7, 8, 9, 255⟩] [⟨7, 8, 9, 255⟩] = 1 ∧
    demoExt.edgeSsim [⟨7, 8, 9, 255⟩] [⟨7, 8, 9, 255⟩] = 1 ∧
    demoExt.histCorrel [⟨7, 8, 9, 255⟩] [⟨7, 8, 9, 255⟩] = 1 ∧
    (¬(needs_background_removal demoExt "high.jpg" = true ∧
        foreground_pixel_analysis [⟨7, 8, 9, 255⟩] < 1 / 5)) ∧
    (rembg_score (demoExt.ssim [⟨7, 8, 9, 255⟩] [⟨7, 8, 9, 255⟩])
          (foreground_pixel_analysis [⟨7, 8, 9, 255⟩])
          (demoExt.edgeSsim [⟨7, 8, 9, 255⟩] [⟨7, 8, 9, 255⟩])
          (demoExt.histCorrel [⟨7, 8, 9, 255⟩] [⟨7, 8, 9, 255⟩]) <
        u2net_score (demoExt.ssim [⟨7, 8, 9, 255⟩] [⟨7, 8, 9, 255⟩])
          (foreground_pixel_analysis [⟨7, 8, 9, 255⟩])
          (demoExt.edgeSsim [⟨7, 8, 9, 255⟩] [⟨7, 8, 9, 255⟩])
          (demoExt.histCorrel [⟨7, 8, 9, 255⟩] [⟨7, 8, 9, 255⟩]) ∧
      decide_best_method demoExt [⟨7, 8, 9, 255⟩] [⟨7, 8, 9, 255⟩]
          (Img.rgb []) "high.jpg" (1 / 5) =
        (Img.rgba [⟨7, 8, 9, 255⟩], Method.U2Net)) := by
  have hmap : demoExt.saliencyMap "high.jpg" = [1] := rfl
  have hg : needs_background_removal demoExt "high.jpg" = false := by
    norm_num [needs_background_removal, hmap, npMean]
  have hov : ¬(needs_background_removal demoExt "high.jpg" = true ∧
      foreground_pixel_analysis [(⟨7, 8, 9, 255⟩ : Pixel)] < 1 / 5) := by
    simp [hg]
  exact ⟨rfl, rfl, rfl, hov,
    decide_best_method_identical demoExt [⟨7, 8, 9, 255⟩] (Img.rgb [])
      "high.jpg" rfl rfl rfl hov⟩

/-! Saliency gate -/

/-- C4: the saliency gate compares the mean of all saliency-map values of
the input image against the fixed threshold 0.4, returning `true` exactly
when the mean is strictly below it and `false` otherwise. -/
theorem needs_background_removal_iff (E : Externals) (img_path : String) :
    (needs_background_removal E img_path = true ↔
      npMean (E.saliencyMap img_path) < 2 / 5) ∧
    (needs_background_removal E img_path = false ↔
      ¬ npMean (E.saliencyMap img_path) < 2 / 5) := by
  constructor
  · simp [needs_background_removal]
  · simp [needs_background_removal]

/-! Compositor theorems -/

/-- C5: `replace_with_white_background` maps every pixel with alpha
exactly 0 to opaque white (255, 255, 255, 255), leaves every pixel with
nonzero alpha unchanged in both RGB and alpha, leaves an image without an
alpha channel unchanged, and its RGBA output has zero fully-transparent
pixels. -/
theorem replace_with_white_background_spec (ps : List Pixel) (rs : List RGB)
    (i : ℕ) (p : Pixel) (hp : ps[i]? = some p) :
    (p.a = 0 →
      (rgbaPixels (replace_with_white_background (Img.rgba ps)))[i]? =
        some ⟨255, 255, 255, 255⟩) ∧
    (p.a ≠ 0 →
      (rgbaPixels (replace_with_white_background (Img.rgba ps)))[i]? = some p) ∧
    (∀ q ∈ rgbaPixels (replace_with_white_background (Img.rgba ps)), q.a ≠ 0) ∧
    replace_with_white_background (Img.rgb rs) = Img.rgb rs := by
  refine ⟨fun h0 => ?_, fun hne => ?_, fun q hq => ?_, rfl⟩
  · simp [replace_with_white_background, rgbaPixels, flattenRGBA,
      List.getElem?_map, hp, h0]
  · simp [replace_with_white_background, rgbaPixels, flattenRGBA,
      List.getElem?_map, hp, hne]
  · simp only [replace_with_white_background, rgbaPixels, flattenRGBA,
      List.mem_map] at hq
    obtain ⟨q', _, rfl⟩ := hq
    by_cases h : q'.a = 0
    · simp [h]
    · simp [h]

/-- Witness for C5 at a concrete two-pixel image (one fully transparent
pixel, one partially transparent pixel). -/
theorem replace_with_white_background_spec_witness :
    ([⟨10, 20, 30, 0⟩, ⟨4, 5, 6, 9⟩] : List Pixel)[0]? = some ⟨10, 20, 30, 0⟩ ∧
    (rgbaPixels (replace_with_white_background
        (Img.rgba [⟨10, 20, 30, 0⟩, ⟨4, 5, 6, 9⟩])))[0]? =
      some ⟨255, 255, 255, 255⟩ :=
  ⟨by decide,
    (replace_with_white_background_spec [⟨10, 20, 30, 0⟩, ⟨4, 5, 6, 9⟩] []
      0 ⟨10, 20, 30, 0⟩ (by decide)).1 rfl⟩

/-- C6: `replace_with_white_background` is idempotent — applying it twice
yields the same image as applying it once, for RGB and RGBA inputs alike. -/
theorem replace_with_white_background_idem (image : Img) :
    replace_with_white_background (replace_with_white_background image) =
      replace_with_white_background image := by
  cases image with
  | rgb ps => rfl
  | rgba ps =>
    simp only [replace_with_white_background, flattenRGBA, List.map_map,
      Img.rgba.injEq]
    refine List.map_congr_left fun p _ => ?_
    by_cases h : p.a = 0
    · simp [h]
    · simp [h]

/-! Directory driver theorems -/

/-- Counterexample to C7 as stated: with a directory holding `bad.jpg`
(whose processing raises an error) followed by `good.jpg` (which would
process fine), the driver stops at the error and produces no output at
all — the later image is not processed, because the loop body has no
error handling. -/
theorem process_directory_abort_cex :
    process_directory failProc ["bad.jpg", "good.jpg"] =
      ([], some "DecodeError") ∧
    has_image_extension "good.jpg" = true ∧
    failProc "good.jpg" = Except.ok [⟨1, 2, 3, 255⟩] := by
  refine ⟨rfl, rfl, rfl⟩

/-- C7 (amended): an error while processing one image aborts the whole
directory run — the outputs are exactly those of the files before the
failing image, and the error propagates out; no later file is processed. -/
theorem process_directory_stops_at_failure
    (proc : String → Except String RGBAImg) (pre : List String) (f : String)
    (rest : List String) (e : String)
    (hpre : (process_directory proc pre).2 = none)
    (hf : has_image_extension f = true)
    (he : proc f = Except.error e) :
    (process_directory proc (pre ++ f :: rest)).1 =
      (process_directory proc pre).1 ∧
    (process_directory proc (pre ++ f :: rest)).2 = some e := by
  induction pre with
  | nil =>
    simp [process_directory, hf, he]
  | cons g pre ih =>
    by_cases hg : has_image_extension g = true
    · cases hok : proc g with
      | error e' =>
        exfalso
        simp [process_directory, hg, hok] at hpre
      | ok img =>
        have hpre' : (process_directory proc pre).2 = none := by
          simpa [process_directory, hg, hok] using hpre
        have hres := ih hpre'
        simp [process_directory, hg, hok, hres.1, hres.2]
    · have hpre' : (process_directory proc pre).2 = none := by
        simpa [process_directory, hg] using hpre
      have hres := ih hpre'
      simp [process_directory, hg, hres.1, hres.2]

/-- Witness for the amended C7 at a concrete directory: one good image
before the failing one, one good image after it. -/
theorem process_directory_stops_at_failure_witness :
    (process_directory failProc ["a.png"]).2 = none ∧
    has_image_extension "bad.jpg" = true ∧
    failProc "bad.jpg" = Except.error "DecodeError" ∧
    ((process_directory failProc (["a.png"] ++ "bad.jpg" :: ["good.jpg"])).1 =
        (process_directory failProc ["a.png"]).1 ∧
      (process_directory failProc (["a.png"] ++ "bad.jpg" :: ["good.jpg"])).2 =
        some "DecodeError") :=
  ⟨rfl, rfl, rfl,
    process_directory_stops_at_failure failProc ["a.png"] "bad.jpg"
      ["good.jpg"] "DecodeError" rfl rfl rfl⟩

/-- C8: on a run where every image processes successfully, the directory
driver processes exactly the files passing the case-insensitive
`.jpg`/`.jpeg`/`.png` extension filter, in order, producing for each one
output named by the base filename with a `.png` extension, and reports no
error. -/
theorem process_directory_filter_map (imgOf : String → RGBAImg)
    (files : List String) :
    process_directory (fun f => Except.ok (imgOf f)) files =
      ((files.filter fun f => has_image_extension f).map
        fun f => (splitext_base f ++ ".png", imgOf f), none) := by
  induction files with
  | nil => rfl
  | cons f rest ih =>
    by_cases hf : has_image_extension f = true
    · simp [process_directory, hf, ih, List.filter_cons]
    · simp only [Bool.not_eq_true] at hf
      simp [process_directory, hf, ih, List.filter_cons]
